import Mathlib

/-
Verification development for the engineering-team management backend.
The definitions below are a shallow embedding of the JavaScript source:
mongoose documents become structures over exact rationals, the store is a
triple of lists, and each route handler becomes a function from the store
and the request to an outcome paired with the updated store.  Document
middleware (pre-save and post-save hooks) runs only on the save path;
direct field updates (findByIdAndUpdate, updateMany) apply the given
fields without running that middleware, matching mongoose semantics.
-/

namespace EngMgmt

/-- JavaScript Math.round: nearest integer, ties toward positive infinity,
that is the floor of the argument plus one half. -/
def jsRound (q : ℚ) : ℤ := (q + 1/2).floor

/-- Embedded time entry subdocument (src/models/Assignment.js, timeEntries). -/
structure TimeEntry where
  date : ℚ
  hours : ℚ
  description : String
deriving Repr, DecidableEq

/-- Embedded assignment document (src/models/Assignment.js).  Dates are
modelled as rational timestamps; reference fields are numeric ids. -/
structure Assignment where
  id : ℕ
  project : ℕ
  assignee : ℕ
  assignedBy : ℕ
  title : String
  status : String
  progress : ℚ
  estimatedHours : ℚ
  actualHours : ℚ
  deadline : ℚ
  completedAt : Option ℚ
  timeEntries : List TimeEntry
deriving Repr, DecidableEq

/-- Embedded team member subdocument (ProjectSchema.teamMembers). -/
structure TeamMember where
  user : ℕ
  role : String
  hoursPerWeek : ℚ
deriving Repr, DecidableEq

/-- Embedded project document (ProjectSchema in src/models/Assignment.js). -/
structure Project where
  id : ℕ
  manager : ℕ
  name : String
  status : String
  progress : ℚ
  budget : ℚ
  budgetUsed : ℚ
  teamMembers : List TeamMember
deriving Repr, DecidableEq

/-- Embedded user document (src/models/User.js).  The password hash and the
lockout bookkeeping are not needed by any claim and are omitted. -/
structure User where
  id : ℕ
  role : String
  firstName : String
  lastName : String
  email : String
  phone : String
  location : String
  department : String
  experienceLevel : String
  skills : List String
  hourlyRate : ℚ
  availability : ℚ
  utilization : ℚ
  efficiency : ℚ
  isActive : Bool
deriving Repr, DecidableEq

/-- The entity store: users, projects and assignments. -/
structure Db where
  users : List User
  projects : List Project
  assignments : List Assignment
deriving Repr, DecidableEq

/-- Outcome of a route handler: an HTTP status code with data, or with an
error message. -/
inductive RouteOutcome (α : Type) where
  | ok (code : ℕ) (data : α)
  | err (code : ℕ) (msg : String)
deriving Repr, DecidableEq

/-- Whether the outcome is a success response. -/
def RouteOutcome.isOk {α : Type} : RouteOutcome α → Bool
  | .ok _ _ => true
  | .err _ _ => false

def findAssignment (db : Db) (id : ℕ) : Option Assignment :=
  db.assignments.find? (fun a => a.id == id)

def findProject (db : Db) (id : ℕ) : Option Project :=
  db.projects.find? (fun p => p.id == id)

def findUser (db : Db) (id : ℕ) : Option User :=
  db.users.find? (fun u => u.id == id)

/-- Persisting a saved document: replace every stored assignment with the
same id, or insert the document when the id is new. -/
def replaceAssignment (db : Db) (a : Assignment) : Db :=
  if db.assignments.any (fun x => x.id == a.id) then
    { db with assignments := db.assignments.map (fun x => if x.id == a.id then a else x) }
  else
    { db with assignments := db.assignments ++ [a] }

def replaceProject (db : Db) (p : Project) : Db :=
  { db with projects := db.projects.map (fun x => if x.id == p.id then p else x) }

def replaceUser (db : Db) (u : User) : Db :=
  { db with users := db.users.map (fun x => if x.id == u.id then u else x) }

/-- The reduce over timeEntries used both by the pre-save hook and by the
totalLoggedHours virtual: timeEntries.reduce((total, entry) => total + entry.hours, 0). -/
def sumHours (es : List TimeEntry) : ℚ :=
  es.foldl (fun total e => total + e.hours) 0

/-- AssignmentSchema.pre("save") (src/models/Assignment.js lines 179 to 196):
recompute actualHours when timeEntries was modified, auto-complete at
progress 100, and move pending or active work with progress above zero to
in-progress.  The modification flag mirrors this.isModified("timeEntries"). -/
def assignmentPreSave (now : ℚ) (timeEntriesModified : Bool) (a : Assignment) : Assignment :=
  let a1 := if timeEntriesModified then { a with actualHours := sumHours a.timeEntries } else a
  let a2 :=
    if a1.progress = 100 ∧ a1.status ≠ "completed" then
      { a1 with status := "completed", completedAt := some now }
    else a1
  if a2.progress > 0 ∧ (a2.status = "pending" ∨ a2.status = "active") then
    { a2 with status := "in-progress" }
  else a2

def sumProgress (as : List Assignment) : ℚ :=
  as.foldl (fun s a => s + a.progress) 0

def assignmentsOf (db : Db) (pid : ℕ) : List Assignment :=
  db.assignments.filter (fun a => a.project == pid)

/-- The derived project progress: the rounded mean of the progress of the
assignments referencing the project, and 0 when there are none.  Both
ProjectSchema.methods.updateProgress and the inline recompute in the PUT
assignment route compute exactly this value. -/
def projectProgressOf (db : Db) (pid : ℕ) : ℚ :=
  let as := assignmentsOf db pid
  if as.length = 0 then 0
  else ((jsRound (sumProgress as / (as.length : ℚ))) : ℚ)

/-- ProjectSchema.pre("save") (src/models/Assignment.js lines 386 to 393):
progress 100 forces status completed, otherwise positive progress moves a
planning project to active. -/
def projectPreSave (p : Project) : Project :=
  if p.progress = 100 ∧ p.status ≠ "completed" then { p with status := "completed" }
  else if p.progress > 0 ∧ p.status = "planning" then { p with status := "active" }
  else p

/-- ProjectSchema.methods.updateProgress (src/models/Assignment.js lines 371
to 383): fetch the assignments of the project, set the derived progress, and
save the document, which runs the project pre-save status rules (the save
skips validation only, not middleware). -/
def projectUpdateProgress (db : Db) (p : Project) : Project :=
  projectPreSave { p with progress := projectProgressOf db p.id }

/-- await assignment.save(): the pre-save hook, persistence, and the
post-save cascade that reloads the owning project and recomputes its
progress (src/models/Assignment.js lines 199 to 205). -/
def saveAssignment (now : ℚ) (timeEntriesModified : Bool) (db : Db) (a : Assignment) : Db :=
  let a1 := assignmentPreSave now timeEntriesModified a
  let db1 := replaceAssignment db a1
  match findProject db1 a1.project with
  | none => db1
  | some p => replaceProject db1 (projectUpdateProgress db1 p)

/-- Modelled from the spec: the auth middleware module is not in the source
tree; per the role matrix, isAdmin admits only callers with role admin. -/
def isAdminGuard (caller : User) : Bool :=
  caller.role == "admin"

/-- Modelled from the spec: the auth middleware module is not in the source
tree; isAdminOrManager admits callers with role admin or manager. -/
def isAdminOrManagerGuard (caller : User) : Bool :=
  caller.role == "admin" || caller.role == "manager"

/-- GET /api/assignments/:id (src/routes/assignments.js lines 67 to 101):
a missing target yields 404; an existing assignment outside an engineer
caller scope yields 403. -/
def getAssignmentById (db : Db) (caller : User) (id : ℕ) : RouteOutcome Assignment :=
  match findAssignment db id with
  | none => .err 404 "Assignment not found"
  | some a =>
    if caller.role = "engineer" ∧ a.assignee ≠ caller.id then
      .err 403 "Not authorized to access this assignment"
    else .ok 200 a

/-- GET /api/projects/:id (src/routes/projects.js lines 54 to 97): a missing
target yields 404; an existing project outside the caller scope (manager not
owning it, or engineer not a team member) yields 403. -/
def getProjectById (db : Db) (caller : User) (id : ℕ) : RouteOutcome Project :=
  match findProject db id with
  | none => .err 404 "Project not found"
  | some p =>
    if caller.role = "manager" ∧ p.manager ≠ caller.id then
      .err 403 "Not authorized to access this project"
    else if caller.role = "engineer" ∧ p.teamMembers.all (fun m => m.user != caller.id) then
      .err 403 "Not authorized to access this project"
    else .ok 200 p

/-- Update payload of PUT /api/assignments/:id; fields absent from the
request body are none.  The admin and manager branch passes req.body to
findByIdAndUpdate wholesale, so the body may also carry an embedded
timeEntries list that replaces the stored one. -/
structure AssignmentUpdateReq where
  title : Option String
  progress : Option ℚ
  status : Option String
  actualHours : Option ℚ
  timeEntries : Option (List TimeEntry)
deriving Repr, DecidableEq

/-- findByIdAndUpdate on an assignment: apply exactly the fields present in
the update document; no save middleware runs. -/
def applyAssignmentUpdate (a : Assignment) (r : AssignmentUpdateReq) : Assignment :=
  { a with
    title := r.title.getD a.title
    progress := r.progress.getD a.progress
    status := r.status.getD a.status
    actualHours := r.actualHours.getD a.actualHours
    timeEntries := r.timeEntries.getD a.timeEntries }

def assignmentStatusValues : List String :=
  ["pending", "active", "in-progress", "completed", "cancelled", "on-hold"]

/-- The schema validators exercised by runValidators on the updated fields:
title length, progress range, status enum, nonnegative actualHours, and the
per-entry hours range of an embedded timeEntries list. -/
def validAssignmentUpdate (r : AssignmentUpdateReq) : Bool :=
  (match r.title with | some t => t.length ≤ 100 | none => true) &&
  (match r.progress with | some q => decide (0 ≤ q ∧ q ≤ 100) | none => true) &&
  (match r.status with | some s => assignmentStatusValues.contains s | none => true) &&
  (match r.actualHours with | some q => decide (0 ≤ q) | none => true) &&
  (match r.timeEntries with
   | some es => es.all (fun e => decide (1/4 ≤ e.hours ∧ e.hours ≤ 24))
   | none => true)

/-- The allowed-field masking of the engineer branch of the PUT assignment
route: only progress, status and actualHours survive. -/
def engineerAssignmentMask (r : AssignmentUpdateReq) : AssignmentUpdateReq :=
  { title := none, progress := r.progress, status := r.status,
    actualHours := r.actualHours, timeEntries := none }

/-- Project.findByIdAndUpdate(projectId, with the progress field): the direct
write used by the recompute inside the PUT assignment route; it sets progress
on the matching stored project without running save middleware. -/
def setProjectsProgress (db : Db) (pid : ℕ) (v : ℚ) : Db :=
  { db with projects := db.projects.map (fun p => if p.id == pid then { p with progress := v } else p) }

/-- PUT /api/assignments/:id (src/routes/assignments.js lines 254 to 352):
permission check, the masked or full findByIdAndUpdate (no save middleware),
then the inline project progress recompute, which writes the rounded mean
directly with Project.findByIdAndUpdate (again no save middleware). -/
def putAssignment (db : Db) (caller : User) (id : ℕ) (req : AssignmentUpdateReq) :
    RouteOutcome Assignment × Db :=
  match findAssignment db id with
  | none => (.err 404 "Assignment not found", db)
  | some a =>
    if ¬(caller.role = "admin" ∨ a.assignedBy = caller.id ∨ a.assignee = caller.id) then
      (.err 403 "Not authorized to update this assignment", db)
    else
      let upd := if caller.role = "engineer" then engineerAssignmentMask req else req
      if ¬(validAssignmentUpdate upd = true) then (.err 400 "Validation error", db)
      else
        let a1 := applyAssignmentUpdate a upd
        let db1 := { db with assignments := db.assignments.map (fun x => if x.id == id then a1 else x) }
        (.ok 200 a1, setProjectsProgress db1 a1.project (projectProgressOf db1 a1.project))

/-- POST /api/assignments/:id/time-entries (src/routes/assignments.js lines
455 to 503): falsy date or hours yield 400, only the assignee may log time,
the entry hours must satisfy the schema range or the save rejects, and the
save runs the full middleware pipeline including the project cascade. -/
def postTimeEntry (now : ℚ) (db : Db) (caller : User) (id : ℕ)
    (date : Option ℚ) (hours : Option ℚ) (description : Option String) :
    RouteOutcome (List TimeEntry) × Db :=
  match date, hours with
  | some d, some h =>
    if d = 0 ∨ h = 0 then (.err 400 "Date and hours are required", db)
    else
      match findAssignment db id with
      | none => (.err 404 "Assignment not found", db)
      | some a =>
        if a.assignee ≠ caller.id then
          (.err 403 "Only the assignee can log time for this assignment", db)
        else if ¬(1/4 ≤ h ∧ h ≤ 24) then (.err 500 "Server error", db)
        else
          let a1 := { a with timeEntries := a.timeEntries ++ [⟨d, h, description.getD ""⟩] }
          (.ok 201 a1.timeEntries, saveAssignment now true db a1)
  | _, _ => (.err 400 "Date and hours are required", db)

/-- Update payload of the user update routes; fields absent from the request
body are none.  The password field never reaches an update and is omitted. -/
structure UserUpdateReq where
  firstName : Option String
  lastName : Option String
  phone : Option String
  location : Option String
  skills : Option (List String)
  availability : Option ℚ
  role : Option String
  department : Option String
  experienceLevel : Option String
  email : Option String
  hourlyRate : Option ℚ
deriving Repr, DecidableEq

/-- The engineer branch of PUT /api/users/:id (src/routes/users.js lines 204
to 216): only firstName, lastName, phone, location, skills and availability
are copied into the update; every other payload field is dropped. -/
def engineerSelfMask (u : User) (r : UserUpdateReq) : User :=
  { u with
    firstName := r.firstName.getD u.firstName
    lastName := r.lastName.getD u.lastName
    phone := r.phone.getD u.phone
    location := r.location.getD u.location
    skills := r.skills.getD u.skills
    availability := r.availability.getD u.availability }

/-- The admin branch of PUT /api/users/:id (src/routes/users.js lines 217 to
223): every payload field except password is applied. -/
def adminUserUpdate (u : User) (r : UserUpdateReq) : User :=
  { u with
    firstName := r.firstName.getD u.firstName
    lastName := r.lastName.getD u.lastName
    phone := r.phone.getD u.phone
    location := r.location.getD u.location
    skills := r.skills.getD u.skills
    availability := r.availability.getD u.availability
    role := r.role.getD u.role
    department := r.department.getD u.department
    experienceLevel := r.experienceLevel.getD u.experienceLevel
    email := r.email.getD u.email
    hourlyRate := r.hourlyRate.getD u.hourlyRate }

/-- PUT /api/users/:id (src/routes/users.js lines 182 to 247). -/
def putUser (db : Db) (caller : User) (id : ℕ) (req : UserUpdateReq) :
    RouteOutcome User × Db :=
  match findUser db id with
  | none => (.err 404 "User not found", db)
  | some u =>
    if ¬(caller.role = "admin" ∨ caller.id = id) then
      (.err 403 "Not authorized to update this user", db)
    else if caller.role = "engineer" ∧ caller.id = id then
      let u1 := engineerSelfMask u req
      (.ok 200 u1, replaceUser db u1)
    else
      let u1 := adminUserUpdate u req
      (.ok 200 u1, replaceUser db u1)

/-- JavaScript truthiness for an optional string field of the profile route:
a present, nonempty string is applied, anything else keeps the old value. -/
def truthyStr (v : Option String) (cur : String) : String :=
  match v with
  | some s => if s = "" then cur else s
  | none => cur

/-- JavaScript truthiness for an optional numeric field: zero is falsy. -/
def truthyNum (v : Option ℚ) (cur : ℚ) : ℚ :=
  match v with
  | some q => if q = 0 then cur else q
  | none => cur

/-- JavaScript truthiness for an optional array field: an array is always
truthy, so any present list is applied. -/
def truthyList (v : Option (List String)) (cur : List String) : List String :=
  match v with
  | some l => l
  | none => cur

/-- The field updates of PUT /api/auth/profile (auth routes, src/unnamed/
part_000 lines 230 to 253): truthy payload values for firstName, lastName,
phone, location, skills, availability, department and experienceLevel are
applied to the caller record. -/
def updateProfile (u : User) (r : UserUpdateReq) : User :=
  { u with
    firstName := truthyStr r.firstName u.firstName
    lastName := truthyStr r.lastName u.lastName
    phone := truthyStr r.phone u.phone
    location := truthyStr r.location u.location
    skills := truthyList r.skills u.skills
    availability := truthyNum r.availability u.availability
    department := truthyStr r.department u.department
    experienceLevel := truthyStr r.experienceLevel u.experienceLevel }

/-- PUT /api/auth/profile: load the caller, apply the truthy fields, save. -/
def putProfile (db : Db) (caller : User) (req : UserUpdateReq) :
    RouteOutcome User × Db :=
  match findUser db caller.id with
  | none => (.err 404 "User not found", db)
  | some u =>
    let u1 := updateProfile u req
    (.ok 200 u1, replaceUser db u1)

/-- Count of active admin users, as in User.countDocuments with role admin
and isActive true. -/
def countActiveAdmins (db : Db) : ℕ :=
  (db.users.filter (fun u => u.role == "admin" && u.isActive)).length

/-- Assignment.updateMany over the assignee with status active or
in-progress, setting status cancelled (a direct update, no middleware). -/
def cancelUserAssignments (db : Db) (uid : ℕ) : Db :=
  { db with assignments := db.assignments.map (fun a => if a.assignee == uid && (a.status == "active" || a.status == "in-progress") then { a with status := "cancelled" } else a) }

/-- DELETE /api/users/:id (src/routes/users.js lines 252 to 295): admin-only
route; deleting an admin while at most one active admin exists fails with the
message Cannot delete the last admin user and changes nothing; otherwise the
target is deactivated and its open assignments are cancelled. -/
def deleteUser (db : Db) (caller : User) (id : ℕ) : RouteOutcome Unit × Db :=
  if ¬(isAdminGuard caller = true) then (.err 403 "Not authorized", db)
  else
    match findUser db id with
    | none => (.err 404 "User not found", db)
    | some u =>
      if u.role = "admin" ∧ countActiveAdmins db ≤ 1 then
        (.err 400 "Cannot delete the last admin user", db)
      else
        let db1 := replaceUser db { u with isActive := false }
        (.ok 200 (), cancelUserAssignments db1 id)

/-- The assignment set driving the workload view: the engineer assignments
with status active or in-progress. -/
def activeAssignmentsOf (db : Db) (uid : ℕ) : List Assignment :=
  db.assignments.filter (fun a => a.assignee == uid && (a.status == "active" || a.status == "in-progress"))

def sumEstimated (as : List Assignment) : ℚ :=
  as.foldl (fun s a => s + a.estimatedHours) 0

/-- The currentWorkload block computed by GET /api/engineers/:id/workload. -/
structure WorkloadSummary where
  activeAssignments : ℕ
  totalEstimatedHours : ℚ
  availableHours : ℚ
  utilizationPercentage : ℤ
  isOverloaded : Bool
deriving Repr, DecidableEq

/-- The workload computation of GET /api/engineers/:id/workload (src/routes/
engineers.js lines 394 to 427).  The reported utilizationPercentage is the
rounded ratio, while isOverloaded compares the unrounded ratio with 100. -/
def workloadFor (db : Db) (eng : User) : WorkloadSummary :=
  let acts := activeAssignmentsOf db eng.id
  let total := sumEstimated acts
  let pct : ℚ := total / eng.availability * 100
  { activeAssignments := acts.length
    totalEstimatedHours := total
    availableHours := max 0 (eng.availability - total)
    utilizationPercentage := jsRound pct
    isOverloaded := decide (pct > 100) }

/-- GET /api/engineers/:id/workload (src/routes/engineers.js lines 371 to
474): the target must be an active engineer, an engineer caller may only view
its own workload. -/
def getWorkload (db : Db) (caller : User) (id : ℕ) : RouteOutcome WorkloadSummary :=
  match db.users.find? (fun u => u.id == id && u.role == "engineer" && u.isActive) with
  | none => .err 404 "Engineer not found"
  | some eng =>
    if caller.role = "engineer" ∧ caller.id ≠ id then
      .err 403 "Not authorized to view this workload analysis"
    else .ok 200 (workloadFor db eng)

/-- The metric writes of PUT /api/engineers/:id/metrics (src/routes/
engineers.js lines 340 to 346): a provided value is clamped into the range 0
to 100, an omitted one is untouched. -/
def updateEngineerMetrics (u : User) (utilization efficiency : Option ℚ) : User :=
  let u1 :=
    match utilization with
    | some v => { u with utilization := max 0 (min 100 v) }
    | none => u
  match efficiency with
  | some v => { u1 with efficiency := max 0 (min 100 v) }
  | none => u1

/-- PUT /api/engineers/:id/metrics (src/routes/engineers.js lines 322 to
366): admin or manager only; the target must be an active engineer. -/
def putEngineerMetrics (db : Db) (caller : User) (id : ℕ)
    (utilization efficiency : Option ℚ) : RouteOutcome User × Db :=
  if ¬(isAdminOrManagerGuard caller = true) then (.err 403 "Not authorized", db)
  else
    match db.users.find? (fun u => u.id == id && u.role == "engineer" && u.isActive) with
    | none => (.err 404 "Engineer not found", db)
    | some eng =>
      let eng1 := updateEngineerMetrics eng utilization efficiency
      (.ok 200 eng1, replaceUser db eng1)

/-
Concrete fixtures used by witnesses and counterexamples.
-/

def baseAssignment : Assignment :=
  { id := 1, project := 1, assignee := 2, assignedBy := 3, title := "Task",
    status := "active", progress := 0, estimatedHours := 10, actualHours := 0,
    deadline := 1000, completedAt := none, timeEntries := [] }

def baseProject : Project :=
  { id := 1, manager := 3, name := "Proj", status := "planning", progress := 0,
    budget := 100, budgetUsed := 0, teamMembers := [] }

def baseEngineer : User :=
  { id := 2, role := "engineer", firstName := "Eva", lastName := "Stone",
    email := "eva@example.com", phone := "123", location := "Remote",
    department := "Backend", experienceLevel := "junior", skills := [],
    hourlyRate := 10, availability := 40, utilization := 0, efficiency := 0,
    isActive := true }

def baseAdmin : User :=
  { baseEngineer with id := 5, role := "admin", email := "admin@example.com" }

def baseDb : Db :=
  { users := [baseEngineer, baseAdmin], projects := [baseProject],
    assignments := [baseAssignment] }

def putProgress100Req : AssignmentUpdateReq :=
  { title := none, progress := some 100, status := some "active",
    actualHours := none, timeEntries := none }

def otherEngineer : User :=
  { baseEngineer with id := 9, email := "other@example.com" }

def progressOnlyReq : AssignmentUpdateReq :=
  { title := none, progress := some 100, status := none,
    actualHours := none, timeEntries := none }

def timeEntriesOnlyReq : AssignmentUpdateReq :=
  { title := none, progress := none, status := none,
    actualHours := none, timeEntries := some [⟨10, 2, ""⟩] }

def emptyUserReq : UserUpdateReq :=
  { firstName := none, lastName := none, phone := none, location := none,
    skills := none, availability := none, role := none, department := none,
    experienceLevel := none, email := none, hourlyRate := none }

def departmentReq : UserUpdateReq :=
  { emptyUserReq with role := some "admin", firstName := some "X", department := some "Design" }

def completedCancelledProject : Project :=
  { baseProject with status := "cancelled", progress := 100 }

def overloadAssignment : Assignment :=
  { baseAssignment with id := 7, status := "active", estimatedHours := 401/10 }

def overloadDb : Db :=
  { users := [baseEngineer], projects := [baseProject], assignments := [overloadAssignment] }

def workloadAssignment1 : Assignment :=
  { baseAssignment with id := 11, status := "active", estimatedHours := 25 }

def workloadAssignment2 : Assignment :=
  { baseAssignment with id := 12, status := "active", estimatedHours := 20 }

def workloadDb : Db :=
  { users := [baseEngineer], projects := [baseProject],
    assignments := [workloadAssignment1, workloadAssignment2] }

def soloAdminDb : Db :=
  { users := [baseAdmin], projects := [], assignments := [] }

def loggedAssignment : Assignment :=
  { baseAssignment with timeEntries := [⟨10, 3, ""⟩] }

/-
Helper lemmas about the derivation engine.
-/

theorem assignmentPreSave_timeEntries (now : ℚ) (m : Bool) (a : Assignment) :
    (assignmentPreSave now m a).timeEntries = a.timeEntries := by
  unfold assignmentPreSave
  dsimp only
  split_ifs <;> rfl

theorem assignmentPreSave_id (now : ℚ) (m : Bool) (a : Assignment) :
    (assignmentPreSave now m a).id = a.id := by
  unfold assignmentPreSave
  dsimp only
  split_ifs <;> rfl

theorem assignmentPreSave_project (now : ℚ) (m : Bool) (a : Assignment) :
    (assignmentPreSave now m a).project = a.project := by
  unfold assignmentPreSave
  dsimp only
  split_ifs <;> rfl

theorem assignmentPreSave_progress (now : ℚ) (m : Bool) (a : Assignment) :
    (assignmentPreSave now m a).progress = a.progress := by
  unfold assignmentPreSave
  dsimp only
  split_ifs <;> rfl

theorem assignmentPreSave_actualHours_modified (now : ℚ) (a : Assignment) :
    (assignmentPreSave now true a).actualHours = sumHours a.timeEntries := by
  unfold assignmentPreSave
  dsimp only
  split_ifs <;> simp_all

theorem ratFloor_eq_intFloor (q : ℚ) : q.floor = ⌊q⌋ := by
  rw [Rat.floor_def, Rat.floor_def']

theorem projectPreSave_progress (p : Project) :
    (projectPreSave p).progress = p.progress := by
  unfold projectPreSave
  split_ifs <;> rfl

theorem projectPreSave_id (p : Project) :
    (projectPreSave p).id = p.id := by
  unfold projectPreSave
  split_ifs <;> rfl

theorem replaceProject_assignments (db : Db) (p : Project) :
    (replaceProject db p).assignments = db.assignments := rfl

theorem saveAssignment_assignments (now : ℚ) (m : Bool) (db : Db) (a : Assignment) :
    (saveAssignment now m db a).assignments =
      (replaceAssignment db (assignmentPreSave now m a)).assignments := by
  unfold saveAssignment
  dsimp only
  cases hfp : findProject (replaceAssignment db (assignmentPreSave now m a)) (assignmentPreSave now m a).project <;> simp [hfp, replaceProject_assignments]

theorem replaceAssignment_mem_id (db : Db) (a : Assignment) :
    ∀ b ∈ (replaceAssignment db a).assignments, b.id = a.id → b = a := by
  intro b hb hid
  unfold replaceAssignment at hb
  split_ifs at hb with hany
  · dsimp only at hb
    rcases List.mem_map.mp hb with ⟨x, hx, hbx⟩
    by_cases hxa : (x.id == a.id) = true
    · rw [if_pos hxa] at hbx
      exact hbx.symm
    · rw [if_neg hxa] at hbx
      subst hbx
      exact absurd (by simp [hid]) hxa
  · dsimp only at hb
    rcases List.mem_append.mp hb with h | h
    · exact absurd (List.any_eq_true.mpr ⟨b, h, by simp [hid]⟩) hany
    · simpa using h

theorem saveAssignment_actualHours (now : ℚ) (db : Db) (a : Assignment) :
    ∀ b ∈ (saveAssignment now true db a).assignments, b.id = a.id →
      b.actualHours = sumHours b.timeEntries := by
  intro b hb hid
  rw [saveAssignment_assignments] at hb
  have hida : b.id = (assignmentPreSave now true a).id := by
    rw [assignmentPreSave_id]
    exact hid
  have hba := replaceAssignment_mem_id db (assignmentPreSave now true a) b hb hida
  subst hba
  rw [assignmentPreSave_actualHours_modified, assignmentPreSave_timeEntries]

/-- C1: the claim fails on the PUT route.  An engineer payload that sets
progress to 100 while requesting status active is stored verbatim by
findByIdAndUpdate, which runs no save middleware: the stored assignment has
progress 100 yet status active and no completedAt. -/
theorem C1_put_route_progress100_counterexample :
    (findAssignment (putAssignment baseDb baseEngineer 1 putProgress100Req).snd 1).map Assignment.progress = some 100 ∧
    (findAssignment (putAssignment baseDb baseEngineer 1 putProgress100Req).snd 1).map Assignment.status = some "active" ∧
    (findAssignment (putAssignment baseDb baseEngineer 1 putProgress100Req).snd 1).map Assignment.completedAt = some none := by
  norm_num [putAssignment, findAssignment, baseDb, baseEngineer, baseAssignment,
    putProgress100Req, engineerAssignmentMask, validAssignmentUpdate,
    applyAssignmentUpdate, setProjectsProgress, assignmentStatusValues]

/-- C1 (amended): on the document-save path the rule does hold: whenever a
save begins with progress 100, the pre-save hook forces status completed, and
it stamps completedAt whenever the status at the start of the save was not
already completed.  The PUT route, which updates fields directly, applies no
such rule (see the counterexample). -/
theorem C1_save_path_completion (now : ℚ) (m : Bool) (a : Assignment)
    (h : a.progress = 100) :
    (assignmentPreSave now m a).status = "completed" ∧
    (a.status ≠ "completed" → (assignmentPreSave now m a).completedAt = some now) := by
  unfold assignmentPreSave
  dsimp only
  split_ifs <;> simp_all

/-- Witness for the amended C1 theorem at a concrete assignment. -/
theorem C1_save_path_completion_witness :
    (assignmentPreSave 5 true { baseAssignment with progress := 100 }).status = "completed" ∧
    (baseAssignment.status ≠ "completed" →
      (assignmentPreSave 5 true { baseAssignment with progress := 100 }).completedAt = some 5) :=
  C1_save_path_completion 5 true { baseAssignment with progress := 100 } rfl

/-- C2: the claim fails on the admin branch of the PUT assignment route.  A
request body carrying a timeEntries list is applied wholesale by
findByIdAndUpdate with no save middleware, so the stored list is replaced
while actualHours keeps its old value: here the new entries sum to 2 hours
but the stored actualHours remains 0. -/
theorem C2_put_route_time_entries_counterexample :
    (findAssignment (putAssignment baseDb baseAdmin 1 timeEntriesOnlyReq).snd 1).map Assignment.timeEntries = some [⟨10, 2, ""⟩] ∧
    (findAssignment (putAssignment baseDb baseAdmin 1 timeEntriesOnlyReq).snd 1).map Assignment.actualHours = some 0 ∧
    sumHours [⟨10, 2, ""⟩] = 2 ∧
    some (0:ℚ) ≠ some (sumHours [⟨10, 2, ""⟩]) := by
  have hupd : (if baseAdmin.role = "engineer" then engineerAssignmentMask timeEntriesOnlyReq
      else timeEntriesOnlyReq) = timeEntriesOnlyReq := by
    simp [baseAdmin, baseEngineer]
  have hval : validAssignmentUpdate timeEntriesOnlyReq = true := by
    norm_num [validAssignmentUpdate, timeEntriesOnlyReq, assignmentStatusValues,
      List.all_cons, List.all_nil, Bool.and_eq_true, decide_eq_true_eq]
  have hfa : findAssignment baseDb 1 = some baseAssignment := by decide
  unfold putAssignment
  rw [hfa]
  dsimp only
  rw [if_neg (show ¬¬(baseAdmin.role = "admin" ∨ baseAssignment.assignedBy = baseAdmin.id ∨
    baseAssignment.assignee = baseAdmin.id) from by decide)]
  rw [hupd]
  rw [if_neg (show ¬¬(validAssignmentUpdate timeEntriesOnlyReq = true) from by simp [hval])]
  norm_num [findAssignment, setProjectsProgress, applyAssignmentUpdate, timeEntriesOnlyReq,
    baseAssignment, baseDb, sumHours]

/-- C2 (amended): after a timeEntries mutation performed through a document
save, such as adding a time entry through the POST time-entries route, the
stored assignment has actualHours equal to the exact rational sum of the
hours of its timeEntries, with no rounding.  The admin or manager branch of
the PUT assignment route can instead replace timeEntries by a direct field
update that runs no save middleware and leaves actualHours stale (see the
counterexample). -/
theorem C2_time_entry_actual_hours (now d hrs : ℚ) (desc : Option String)
    (db : Db) (caller : User) (id : ℕ) (b : Assignment)
    (hok : ((postTimeEntry now db caller id (some d) (some hrs) desc).fst).isOk = true)
    (hb : findAssignment ((postTimeEntry now db caller id (some d) (some hrs) desc).snd) id = some b) :
    b.actualHours = sumHours b.timeEntries := by
  unfold postTimeEntry at hok hb
  dsimp only at hok hb
  by_cases h0 : d = 0 ∨ hrs = 0
  · rw [if_pos h0] at hok
    simp [RouteOutcome.isOk] at hok
  · rw [if_neg h0] at hok hb
    cases hfa : findAssignment db id with
    | none =>
      rw [hfa] at hok
      simp [RouteOutcome.isOk] at hok
    | some a =>
      rw [hfa] at hok hb
      dsimp only at hok hb
      by_cases h1 : a.assignee ≠ caller.id
      · rw [if_pos h1] at hok
        simp [RouteOutcome.isOk] at hok
      · rw [if_neg h1] at hok hb
        by_cases h2 : 1/4 ≤ hrs ∧ hrs ≤ 24
        · rw [if_neg (by simpa using h2)] at hb
          dsimp only at hb
          unfold findAssignment at hfa hb
          have haid : a.id = id := by
            have := List.find?_some hfa
            simpa using this
          have hbmem : b ∈ ((saveAssignment now true db { a with timeEntries := a.timeEntries ++ [⟨d, hrs, desc.getD ""⟩] }).assignments) :=
            List.mem_of_find?_eq_some hb
          have hbid : b.id = id := by simpa using List.find?_some hb
          exact saveAssignment_actualHours now db _ b hbmem (hbid.trans haid.symm)
        · rw [if_pos (by simpa using h2)] at hok
          simp [RouteOutcome.isOk] at hok

/-- Witness for the C2 theorem at a concrete time-entry request. -/
theorem C2_time_entry_actual_hours_witness :
    ((postTimeEntry 100 baseDb baseEngineer 1 (some 10) (some 3) none).fst).isOk = true ∧
    (assignmentPreSave 100 true loggedAssignment).actualHours =
      sumHours (assignmentPreSave 100 true loggedAssignment).timeEntries :=
  ⟨by norm_num [postTimeEntry, findAssignment, baseDb, baseEngineer, baseAssignment, RouteOutcome.isOk],
   C2_time_entry_actual_hours 100 10 3 none baseDb baseEngineer 1 _
     (by norm_num [postTimeEntry, findAssignment, baseDb, baseEngineer, baseAssignment, RouteOutcome.isOk])
     (by norm_num [postTimeEntry, findAssignment, baseDb, baseEngineer, baseAssignment, loggedAssignment, saveAssignment, replaceAssignment, replaceProject, findProject, baseProject, projectUpdateProgress, projectPreSave, projectProgressOf, assignmentsOf, sumProgress, assignmentPreSave, sumHours, jsRound])⟩

theorem mem_setProjectsProgress (db : Db) (pid : ℕ) (v : ℚ) :
    ∀ p ∈ (setProjectsProgress db pid v).projects, p.id = pid → p.progress = v := by
  intro p hp hid
  unfold setProjectsProgress at hp
  dsimp only at hp
  rcases List.mem_map.mp hp with ⟨q, hq, hpq⟩
  by_cases hqid : (q.id == pid) = true
  · rw [if_pos hqid] at hpq
    subst hpq
    rfl
  · rw [if_neg hqid] at hpq
    subst hpq
    exact absurd (by simp [hid]) hqid

theorem replaceProject_mem_id (db : Db) (q : Project) :
    ∀ p ∈ (replaceProject db q).projects, p.id = q.id → p = q := by
  intro p hp hid
  unfold replaceProject at hp
  dsimp only at hp
  rcases List.mem_map.mp hp with ⟨x, hx, hpx⟩
  by_cases hxq : (x.id == q.id) = true
  · rw [if_pos hxq] at hpx
    exact hpx.symm
  · rw [if_neg hxq] at hpx
    subst hpx
    exact absurd (by simp [hid]) hxq

theorem projectUpdateProgress_id (db : Db) (q : Project) :
    (projectUpdateProgress db q).id = q.id := by
  unfold projectUpdateProgress
  rw [projectPreSave_id]

theorem projectUpdateProgress_progress (db : Db) (q : Project) :
    (projectUpdateProgress db q).progress = projectProgressOf db q.id := by
  unfold projectUpdateProgress
  rw [projectPreSave_progress]

theorem projectProgressOf_congr (db db2 : Db) (pid : ℕ)
    (h : db2.assignments = db.assignments) :
    projectProgressOf db2 pid = projectProgressOf db pid := by
  unfold projectProgressOf assignmentsOf
  rw [h]

theorem replaceAssignment_projects (db : Db) (a : Assignment) :
    (replaceAssignment db a).projects = db.projects := by
  unfold replaceAssignment
  split_ifs <;> rfl

/-- C3: the stored project progress is the rounded mean of the progress of
the assignments referencing that project (0 when there are none), both after
the PUT assignment route and after any assignment document save with its
post-save cascade. -/
theorem C3_project_progress_mean :
    (∀ db caller id req a1,
      (putAssignment db caller id req).fst = .ok 200 a1 →
      ∀ p ∈ ((putAssignment db caller id req).snd).projects, p.id = a1.project →
        p.progress = projectProgressOf ((putAssignment db caller id req).snd) p.id) ∧
    (∀ now m db a,
      ∀ p ∈ (saveAssignment now m db a).projects, p.id = a.project →
        p.progress = projectProgressOf (saveAssignment now m db a) p.id) := by
  constructor
  · intro db caller id req a1 hok p hp hpid
    cases hfa : findAssignment db id with
    | none =>
      simp only [putAssignment, hfa] at hok
      exact absurd hok (by simp)
    | some a =>
      simp only [putAssignment, hfa] at hok hp ⊢
      by_cases hperm : ¬(caller.role = "admin" ∨ a.assignedBy = caller.id ∨ a.assignee = caller.id)
      · rw [if_pos hperm] at hok
        exact absurd hok (by simp)
      · rw [if_neg hperm] at hok hp ⊢
        by_cases hval : ¬(validAssignmentUpdate (if caller.role = "engineer" then engineerAssignmentMask req else req) = true)
        · rw [if_pos hval] at hok
          exact absurd hok (by simp)
        · rw [if_neg hval] at hok hp ⊢
          dsimp only at hok hp ⊢
          have ha1 : applyAssignmentUpdate a (if caller.role = "engineer" then engineerAssignmentMask req else req) = a1 := by
            simpa [RouteOutcome.ok.injEq] using hok
          rw [ha1] at hp ⊢
          rw [projectProgressOf_congr _ _ _ (by rfl), hpid]
          exact mem_setProjectsProgress _ _ _ p hp hpid
  · intro now m db a p hp hpid
    unfold saveAssignment at hp ⊢
    dsimp only at hp ⊢
    cases hfp : findProject (replaceAssignment db (assignmentPreSave now m a)) ((assignmentPreSave now m a).project) with
    | none =>
      simp only [hfp] at hp ⊢
      exfalso
      unfold findProject at hfp
      have hnone := List.find?_eq_none.mp hfp p hp
      rw [assignmentPreSave_project] at hnone
      exact hnone (by simp [hpid])
    | some p0 =>
      simp only [hfp] at hp ⊢
      have hp0id : p0.id = a.project := by
        unfold findProject at hfp
        have := List.find?_some hfp
        rw [assignmentPreSave_project] at this
        simpa using this
      have hpeq : p = projectUpdateProgress (replaceAssignment db (assignmentPreSave now m a)) p0 := by
        apply replaceProject_mem_id _ _ p hp
        rw [projectUpdateProgress_id, hp0id]
        exact hpid
      rw [hpeq, projectUpdateProgress_progress,
        projectProgressOf_congr _ _ _ (replaceProject_assignments _ _),
        projectUpdateProgress_id]

/-- Witness for the C3 theorem: the route branch applied to a concrete
engineer update that sets progress to 100 on the only assignment of the
project. -/
theorem C3_project_progress_mean_witness :
    ((putAssignment baseDb baseEngineer 1 progressOnlyReq).fst =
      .ok 200 (applyAssignmentUpdate baseAssignment (engineerAssignmentMask progressOnlyReq))) ∧
    (({ baseProject with progress := (100:ℚ) } : Project) ∈
      ((putAssignment baseDb baseEngineer 1 progressOnlyReq).snd).projects) ∧
    ({ baseProject with progress := (100:ℚ) } : Project).progress =
      projectProgressOf ((putAssignment baseDb baseEngineer 1 progressOnlyReq).snd)
        ({ baseProject with progress := (100:ℚ) } : Project).id := by
  have hok : (putAssignment baseDb baseEngineer 1 progressOnlyReq).fst =
      .ok 200 (applyAssignmentUpdate baseAssignment (engineerAssignmentMask progressOnlyReq)) := by
    norm_num [putAssignment, findAssignment, baseDb, baseEngineer, baseAssignment,
      progressOnlyReq, engineerAssignmentMask, validAssignmentUpdate, assignmentStatusValues]
  have hp : ({ baseProject with progress := (100:ℚ) } : Project) ∈
      ((putAssignment baseDb baseEngineer 1 progressOnlyReq).snd).projects := by
    norm_num [putAssignment, findAssignment, baseDb, baseEngineer, baseAssignment, baseProject,
      progressOnlyReq, engineerAssignmentMask, validAssignmentUpdate, assignmentStatusValues,
      applyAssignmentUpdate, setProjectsProgress, projectProgressOf, assignmentsOf, sumProgress,
      jsRound, ratFloor_eq_intFloor]
  exact ⟨hok, hp, C3_project_progress_mean.1 baseDb baseEngineer 1 progressOnlyReq _ hok _ hp rfl⟩

/-- C4: the claim fails on the recompute path of the PUT assignment route.
The recompute writes the new progress with a direct update and no save
middleware, so a planning project reaching progress 100 keeps status
planning instead of auto-completing. -/
theorem C4_route_recompute_counterexample :
    (findProject (putAssignment baseDb baseEngineer 1 progressOnlyReq).snd 1).map Project.progress = some 100 ∧
    (findProject (putAssignment baseDb baseEngineer 1 progressOnlyReq).snd 1).map Project.status = some "planning" := by
  norm_num [putAssignment, findAssignment, findProject, baseDb, baseEngineer, baseAssignment,
    baseProject, progressOnlyReq, engineerAssignmentMask, validAssignmentUpdate,
    assignmentStatusValues, applyAssignmentUpdate, setProjectsProgress, projectProgressOf,
    assignmentsOf, sumProgress, jsRound, ratFloor_eq_intFloor]

/-- C4 (amended): the project status auto-transitions run only on the
document-save path.  There, progress 100 always forces completed, even out of
cancelled, so the forward-only guarantee holds for completed but not for
cancelled; a cancelled project is otherwise left alone, and a planning
project with partial progress becomes active. -/
theorem C4_save_path_status_rules (p : Project) :
    (p.progress = 100 → (projectPreSave p).status = "completed") ∧
    (p.status = "completed" → (projectPreSave p).status = "completed") ∧
    (p.status = "cancelled" → p.progress ≠ 100 → (projectPreSave p).status = "cancelled") ∧
    (p.status = "planning" → 0 < p.progress → p.progress ≠ 100 → (projectPreSave p).status = "active") := by
  unfold projectPreSave
  refine ⟨fun h => ?_, fun h => ?_, fun h h2 => ?_, fun h h2 h3 => ?_⟩ <;> split_ifs <;> simp_all

/-- Witness for the amended C4 theorem: a cancelled project with progress 100
is auto-moved to completed by the save path. -/
theorem C4_save_path_status_rules_witness :
    completedCancelledProject.progress = 100 ∧
    (projectPreSave completedCancelledProject).status = "completed" :=
  ⟨rfl, (C4_save_path_status_rules completedCancelledProject).1 rfl⟩

/-- C5: the claim fails: an assignment that exists but is outside an
engineer caller scope yields a 403 Forbidden response, while a missing id
yields 404 NotFound, so the two cases are distinguishable. -/
theorem C5_hidden_vs_missing_counterexample :
    getAssignmentById baseDb otherEngineer 1 = .err 403 "Not authorized to access this assignment" ∧
    getAssignmentById baseDb otherEngineer 99 = .err 404 "Assignment not found" ∧
    getAssignmentById baseDb otherEngineer 1 ≠ getAssignmentById baseDb otherEngineer 99 := by
  refine ⟨by decide, by decide, by decide⟩

/-- C5 (amended): a missing target yields the NotFound failure, while an
existing target hidden from the caller scope yields the distinct Forbidden
failure, on both the assignment and the project read routes. -/
theorem C5_scope_failures (db : Db) (caller : User) (id : ℕ) :
    (findAssignment db id = none → getAssignmentById db caller id = .err 404 "Assignment not found") ∧
    (∀ a, findAssignment db id = some a → caller.role = "engineer" → a.assignee ≠ caller.id →
      getAssignmentById db caller id = .err 403 "Not authorized to access this assignment") ∧
    (findProject db id = none → getProjectById db caller id = .err 404 "Project not found") ∧
    (∀ p, findProject db id = some p → caller.role = "engineer" →
      p.teamMembers.all (fun m => m.user != caller.id) = true →
      getProjectById db caller id = .err 403 "Not authorized to access this project") := by
  refine ⟨?_, ?_, ?_, ?_⟩
  · intro h
    unfold getAssignmentById
    rw [h]
  · intro a ha hrole hscope
    unfold getAssignmentById
    rw [ha]
    dsimp only
    rw [if_pos ⟨hrole, hscope⟩]
  · intro h
    unfold getProjectById
    rw [h]
  · intro p hp hrole hmem
    unfold getProjectById
    rw [hp]
    dsimp only
    rw [if_neg (by simp [hrole]), if_pos ⟨hrole, hmem⟩]

/-- Witness for the amended C5 theorem at a concrete store. -/
theorem C5_scope_failures_witness :
    findAssignment baseDb 1 = some baseAssignment ∧
    getAssignmentById baseDb otherEngineer 1 = .err 403 "Not authorized to access this assignment" :=
  ⟨by decide,
   (C5_scope_failures baseDb otherEngineer 1).2.1 baseAssignment (by decide) (by decide) (by decide)⟩

/-- C6: the claim fails on the profile route.  An engineer self-update
through PUT /api/auth/profile with department in the payload applies the
department (a field outside the claimed six-field mask), while role is still
dropped and firstName is applied. -/
theorem C6_profile_mask_counterexample :
    baseEngineer.department = "Backend" ∧
    (findUser (putProfile baseDb baseEngineer departmentReq).snd 2).map User.department = some "Design" ∧
    (findUser (putProfile baseDb baseEngineer departmentReq).snd 2).map User.firstName = some "X" ∧
    (findUser (putProfile baseDb baseEngineer departmentReq).snd 2).map User.role = some "engineer" := by
  refine ⟨by decide, by decide, by decide, by decide⟩

/-- C6 (amended): the six-field mask holds on the PUT users route: an
engineer self-update there leaves role, email, department, experienceLevel,
hourlyRate, utilization, efficiency, isActive and id unchanged.  The profile
route additionally applies department and experienceLevel, but still leaves
role, email, hourlyRate, utilization, efficiency, isActive and id unchanged,
so a payload with role admin and firstName X changes only firstName on
either path. -/
theorem C6_self_update_masks (u : User) (r : UserUpdateReq) :
    ((engineerSelfMask u r).role = u.role ∧
     (engineerSelfMask u r).email = u.email ∧
     (engineerSelfMask u r).department = u.department ∧
     (engineerSelfMask u r).experienceLevel = u.experienceLevel ∧
     (engineerSelfMask u r).hourlyRate = u.hourlyRate ∧
     (engineerSelfMask u r).utilization = u.utilization ∧
     (engineerSelfMask u r).efficiency = u.efficiency ∧
     (engineerSelfMask u r).isActive = u.isActive ∧
     (engineerSelfMask u r).id = u.id) ∧
    ((updateProfile u r).role = u.role ∧
     (updateProfile u r).email = u.email ∧
     (updateProfile u r).hourlyRate = u.hourlyRate ∧
     (updateProfile u r).utilization = u.utilization ∧
     (updateProfile u r).efficiency = u.efficiency ∧
     (updateProfile u r).isActive = u.isActive ∧
     (updateProfile u r).id = u.id) :=
  ⟨⟨rfl, rfl, rfl, rfl, rfl, rfl, rfl, rfl, rfl⟩, ⟨rfl, rfl, rfl, rfl, rfl, rfl, rfl⟩⟩

/-- C7: the claim fails at the overload boundary.  With availability 40 and a
single active assignment estimated at 40.1 hours the unrounded utilization is
100.25 percent, so the route reports utilizationPercentage 100 yet
isOverloaded true, contradicting the claimed equivalence of isOverloaded
with utilizationPercentage above 100. -/
theorem C7_overload_boundary_counterexample :
    (workloadFor overloadDb baseEngineer).utilizationPercentage = 100 ∧
    (workloadFor overloadDb baseEngineer).isOverloaded = true ∧
    ¬(((workloadFor overloadDb baseEngineer).isOverloaded = true) ↔
      ((workloadFor overloadDb baseEngineer).utilizationPercentage > 100)) := by
  norm_num [workloadFor, activeAssignmentsOf, sumEstimated, overloadDb, overloadAssignment,
    baseAssignment, baseEngineer, jsRound, ratFloor_eq_intFloor]

/-- C7 (amended): for a found active engineer with positive availability the
workload view satisfies: totalEstimatedHours is the sum over the active and
in-progress assignments, utilizationPercentage is the rounded percentage,
availableHours is clamped at zero, and isOverloaded holds exactly when the
unrounded percentage exceeds 100 (not the rounded one). -/
theorem C7_workload_formulas (db : Db) (caller : User) (id : ℕ) (eng : User) (w : WorkloadSummary)
    (heng : db.users.find? (fun u => u.id == id && u.role == "engineer" && u.isActive) = some eng)
    (hpos : 0 < eng.availability)
    (hok : getWorkload db caller id = .ok 200 w) :
    w.totalEstimatedHours = sumEstimated (activeAssignmentsOf db eng.id) ∧
    w.utilizationPercentage = jsRound (sumEstimated (activeAssignmentsOf db eng.id) / eng.availability * 100) ∧
    w.availableHours = max 0 (eng.availability - sumEstimated (activeAssignmentsOf db eng.id)) ∧
    ((w.isOverloaded = true) ↔ sumEstimated (activeAssignmentsOf db eng.id) / eng.availability * 100 > 100) := by
  unfold getWorkload at hok
  rw [heng] at hok
  dsimp only at hok
  by_cases hscope : caller.role = "engineer" ∧ caller.id ≠ id
  · rw [if_pos hscope] at hok
    exact absurd hok (by simp)
  · rw [if_neg hscope] at hok
    have hw : workloadFor db eng = w := by simpa using hok
    subst hw
    refine ⟨rfl, rfl, rfl, ?_⟩
    simp [workloadFor]

/-- Witness for the amended C7 theorem at the concrete example of the spec:
availability 40 with two active assignments estimated at 25 and 20 hours. -/
theorem C7_workload_formulas_witness :
    workloadDb.users.find? (fun u => u.id == 2 && u.role == "engineer" && u.isActive) = some baseEngineer ∧
    (0:ℚ) < baseEngineer.availability ∧
    getWorkload workloadDb baseAdmin 2 = .ok 200 (workloadFor workloadDb baseEngineer) ∧
    ((workloadFor workloadDb baseEngineer).totalEstimatedHours =
        sumEstimated (activeAssignmentsOf workloadDb baseEngineer.id) ∧
      (workloadFor workloadDb baseEngineer).utilizationPercentage =
        jsRound (sumEstimated (activeAssignmentsOf workloadDb baseEngineer.id) / baseEngineer.availability * 100) ∧
      (workloadFor workloadDb baseEngineer).availableHours =
        max 0 (baseEngineer.availability - sumEstimated (activeAssignmentsOf workloadDb baseEngineer.id)) ∧
      (((workloadFor workloadDb baseEngineer).isOverloaded = true) ↔
        sumEstimated (activeAssignmentsOf workloadDb baseEngineer.id) / baseEngineer.availability * 100 > 100)) ∧
    (workloadFor workloadDb baseEngineer).utilizationPercentage = 113 ∧
    (workloadFor workloadDb baseEngineer).isOverloaded = true ∧
    (workloadFor workloadDb baseEngineer).availableHours = 0 := by
  refine ⟨by rfl, by norm_num [baseEngineer], by rfl,
    C7_workload_formulas workloadDb baseAdmin 2 baseEngineer _ (by rfl) (by norm_num [baseEngineer]) (by rfl),
    ?_, ?_, ?_⟩ <;>
  norm_num [workloadFor, activeAssignmentsOf, sumEstimated, workloadDb, workloadAssignment1,
    workloadAssignment2, baseAssignment, baseEngineer, jsRound, ratFloor_eq_intFloor]

/-- C8: the derivation recomputes are idempotent.  Re-running the assignment
pre-save derivation (hours recompute plus status rules) on its own output
changes nothing, even with a different clock, and re-running the project
progress recompute with its status rules against the same store changes
nothing. -/
theorem C8_derivation_idempotent (n1 n2 : ℚ) (a : Assignment) (db : Db) (p : Project) :
    assignmentPreSave n2 true (assignmentPreSave n1 true a) = assignmentPreSave n1 true a ∧
    projectUpdateProgress db (projectUpdateProgress db p) = projectUpdateProgress db p := by
  constructor
  · cases a with
    | mk id proj asg asgBy title status progress est act dl compAt tes =>
      unfold assignmentPreSave sumHours
      dsimp only
      split_ifs <;> simp_all
  · cases p with
    | mk pid mgr name status progress budget used tm =>
      unfold projectUpdateProgress projectPreSave
      dsimp only
      split_ifs <;> simp_all

/-- C9: a delete request by an admin against a user who is the only
remaining active admin fails with the message Cannot delete the last admin
user and leaves the store untouched: the target stays active and no
assignment status changes. -/
theorem C9_last_admin_guard (db : Db) (caller : User) (id : ℕ) (u : User)
    (hc : caller.role = "admin")
    (hu : findUser db id = some u)
    (hrole : u.role = "admin")
    (hact : u.isActive = true)
    (hcount : countActiveAdmins db = 1) :
    deleteUser db caller id = (.err 400 "Cannot delete the last admin user", db) := by
  unfold deleteUser
  rw [if_neg (by simp [isAdminGuard, hc])]
  rw [hu]
  dsimp only
  rw [if_pos ⟨hrole, by omega⟩]

/-- Witness for the C9 theorem: a store holding a single active admin. -/
theorem C9_last_admin_guard_witness :
    baseAdmin.role = "admin" ∧
    findUser soloAdminDb 5 = some baseAdmin ∧
    baseAdmin.isActive = true ∧
    countActiveAdmins soloAdminDb = 1 ∧
    deleteUser soloAdminDb baseAdmin 5 = (.err 400 "Cannot delete the last admin user", soloAdminDb) :=
  ⟨rfl, by decide, rfl, by decide,
   C9_last_admin_guard soloAdminDb baseAdmin 5 baseAdmin rfl (by decide) rfl rfl (by decide)⟩

/-- C10: a numeric metric supplied to the engineer metrics update is stored
clamped into the range 0 to 100 as max 0 (min 100 value) rather than being
rejected, and an omitted metric is left unchanged. -/
theorem C10_metrics_clamped (u : User) (v : ℚ) :
    (updateEngineerMetrics u (some v) none).utilization = max 0 (min 100 v) ∧
    (updateEngineerMetrics u (some v) none).efficiency = u.efficiency ∧
    (updateEngineerMetrics u none (some v)).efficiency = max 0 (min 100 v) ∧
    (updateEngineerMetrics u none (some v)).utilization = u.utilization ∧
    updateEngineerMetrics u none none = u ∧
    0 ≤ (updateEngineerMetrics u (some v) none).utilization ∧
    (updateEngineerMetrics u (some v) none).utilization ≤ 100 := by
  refine ⟨rfl, rfl, rfl, rfl, rfl, ?_, ?_⟩
  · exact le_max_left 0 (min 100 v)
  · exact max_le (by norm_num) (min_le_left (100:ℚ) v)

end EngMgmt
